import Mathlib

/-!
Verification of the cart/pricing slice of the `hirdavat2` mobile storefront.

The repository's view layer (`app/(tabs)/cart.tsx`, `app/checkout/index.tsx`,
`src/components/CartItemCard.tsx`, `src/components/ProductCard.tsx`,
`app/(tabs)/_layout.tsx`, `app/admin/_layout.tsx`) is embedded directly.
The shared state store (`src/store/useStore`) is referenced by every screen
but its source is not part of the supplied material; the ledger operations,
the pricing engine and the localized-text resolver it provides are modelled
from the specification (sections 4.1 to 4.3), as flagged on each definition.

Monetary values are embedded as exact rationals: the specification frames
all pricing rules in decimal currency units with rounding to two fractional
digits applied only at display time.
-/

/-- A Lang code of the storefront: Dutch, French, English, Turkish. -/
inductive Lang where
  | nl
  | fr
  | en
  | tr
deriving DecidableEq

/-- A multilingual record keyed by language code (`src/types`: `MultilingualText`).
Fields absent in a literal record correspond to the empty string. -/
structure MultilingualText where
  nl : String := ""
  fr : String := ""
  en : String := ""
  tr : String := ""
deriving DecidableEq

/-- Field lookup of a `MultilingualText` by language code. -/
def MultilingualText.get (t : MultilingualText) : Lang → String
  | .nl => t.nl
  | .fr => t.fr
  | .en => t.en
  | .tr => t.tr

/-- JavaScript-style string fallback: `a || b` on strings, where the empty
string is the only falsy value. -/
def orEmpty (a b : String) : String :=
  if a = "" then b else a

/-- First non-empty string of a list, or the empty string. -/
def firstNonEmpty : List String → String
  | [] => ""
  | s :: rest => if s = "" then firstNonEmpty rest else s

/-- Modelled from the spec: the store's `getLocalizedText` resolver
(`src/store/useStore`, not part of the supplied sources; spec section 4.3):
the active language's string if non-empty, else `en`, else the first
non-empty value among `nl`, `fr`, `tr` in that fixed order, else `""`. -/
def getLocalizedText (t : MultilingualText) (lang : Lang) : String :=
  orEmpty (t.get lang) (orEmpty t.en (orEmpty t.nl (orEmpty t.fr t.tr)))

/-- JavaScript `String.prototype.trim()`: strips whitespace from both ends.
(The built-in `String.trim` is used by the checkout source; this executable
character-list version is its shallow embedding.) -/
def jsTrim (s : String) : String :=
  ⟨((s.data.dropWhile Char.isWhitespace).reverse.dropWhile Char.isWhitespace).reverse⟩

/-- JavaScript `s.includes(c)` for a one-character needle, as used by the
email check `customer.email.includes('@')`. -/
def jsIncludesChar (s : String) (c : Char) : Bool :=
  s.data.contains c

/-- A catalog product as referenced by the cart
(`src/types`: `Product`, fields relevant to the cart/pricing slice). -/
structure Product where
  id : String
  price : ℚ
  stock : Nat
  name : MultilingualText := {}
deriving DecidableEq

/-- One ledger line: a product snapshot plus a quantity
(`src/types`: `CartItem`). -/
structure CartItem where
  product : Product
  quantity : Nat
deriving DecidableEq

/-- The ids of the ledger's lines, in insertion order. -/
def cartIds (cart : List CartItem) : List String :=
  cart.map fun it => it.product.id

/-- Whether the ledger holds a line for `pid` (JS `cart.find(...)` truthiness). -/
def hasProduct (cart : List CartItem) (pid : String) : Bool :=
  cart.any fun it => it.product.id == pid

/-- Total quantity recorded for `pid` (sum over its lines; under the ledger
invariant there is at most one). -/
def quantityOf (cart : List CartItem) (pid : String) : Nat :=
  ((cart.filter fun it => it.product.id == pid).map fun it => it.quantity).sum

/-- Modelled from the spec: the store's `addToCart(product, quantity)`
(`src/store/useStore`, not part of the supplied sources; spec section 4.1):
if a line for `product.id` exists its quantity increases by `quantity`,
otherwise a new line is appended with the product snapshot. -/
def addToCart (cart : List CartItem) (p : Product) (q : Nat) : List CartItem :=
  if hasProduct cart p.id then
    cart.map fun it =>
      if it.product.id == p.id then { it with quantity := it.quantity + q } else it
  else
    cart ++ [{ product := p, quantity := q }]

/-- Modelled from the spec: the store's `updateQuantity(productId, newQuantity)`
(`src/store/useStore`, not part of the supplied sources; spec section 4.1):
`newQuantity <= 0` removes the line, otherwise the line's quantity is set to
exactly `newQuantity`.  `newQuantity` is an `Int` because the cart screen
passes `item.quantity - 1` (`src/components/CartItemCard.tsx` line 37). -/
def updateQuantity (cart : List CartItem) (pid : String) (newQuantity : Int) : List CartItem :=
  if newQuantity ≤ 0 then
    cart.filter fun it => !(it.product.id == pid)
  else
    cart.map fun it =>
      if it.product.id == pid then { it with quantity := newQuantity.toNat } else it

/-- Modelled from the spec: the store's `removeFromCart(productId)`
(`src/store/useStore`, not part of the supplied sources; spec section 4.1). -/
def removeFromCart (cart : List CartItem) (pid : String) : List CartItem :=
  cart.filter fun it => !(it.product.id == pid)

/-- The empty ledger produced by the store's `clearCart()` (spec section 4.1). -/
def clearCart : List CartItem := []

/-- `cart.reduce((sum, item) => sum + item.quantity, 0)`
(`app/(tabs)/_layout.tsx` line 10; spec's `getCartItemCount()`). -/
def getCartItemCount (cart : List CartItem) : Nat :=
  cart.foldl (fun sum it => sum + it.quantity) 0

/-- One UI event on the cart ledger (spec section 4.1's operation alphabet). -/
inductive CartOp where
  | add (p : Product) (q : Nat)
  | update (pid : String) (q : Int)
  | remove (pid : String)

/-- Apply one operation to the ledger. -/
def applyOp (cart : List CartItem) : CartOp → List CartItem
  | .add p q => addToCart cart p q
  | .update pid q => updateQuantity cart pid q
  | .remove pid => removeFromCart cart pid

/-- Run a sequence of operations starting from the empty ledger. -/
def applyOps (ops : List CartOp) : List CartItem :=
  ops.foldl applyOp []

/-- Spec section 4.1's domain condition on operations: `addToCart`'s quantity
must be a positive integer; the other operations are unrestricted. -/
def legalOp : CartOp → Prop
  | .add _ q => 1 ≤ q
  | .update _ _ => True
  | .remove _ => True

/-- The ledger invariant of spec section 8: at most one line per product id,
and every line present has quantity at least 1. -/
def CartWf (cart : List CartItem) : Prop :=
  (cartIds cart).Nodup ∧ ∀ it ∈ cart, 1 ≤ it.quantity

/-- Discount type: percentage or fixed amount (`src/types`: `Discount`). -/
inductive DiscountType where
  | percentage
  | fixed
deriving DecidableEq

/-- A discount as held by the store and the admin screen
(`src/unnamed/part_001` lines 81 to 92: `discountData`). -/
structure Discount where
  code : String
  discount_type : DiscountType
  discount_value : ℚ
  min_order_amount : ℚ
  max_uses : Nat := 0
  used_count : Nat := 0
  is_active : Bool := true
deriving DecidableEq

/-- The tax policy constant: 21 percent, the rate the admin order screen
labels "Tax (21%)" (`app/admin/_layout.tsx` line 310; spec section 4.2). -/
def TAX_RATE : ℚ := 21 / 100

/-- Sum over lines of `price * quantity`, in exact decimal currency units
(spec section 4.2 step 1). -/
def subtotalOf (cart : List CartItem) : ℚ :=
  (cart.map fun it => it.product.price * (it.quantity : ℚ)).sum

/-- Spec section 4.2 step 3: the discount reduction, zero when no discount is
applied or the subtotal is below the discount's minimum order amount. -/
def discountAmountOf (subtotal : ℚ) : Option Discount → ℚ
  | none => 0
  | some d =>
    if d.min_order_amount ≤ subtotal then
      match d.discount_type with
      | .percentage => subtotal * (d.discount_value / 100)
      | .fixed => min d.discount_value subtotal
    else 0

/-- The derived price breakdown (spec section 3: `PriceBreakdown`). -/
structure PriceBreakdown where
  subtotal : ℚ
  tax : ℚ
  discountAmount : ℚ
  total : ℚ
deriving DecidableEq

/-- Modelled from the spec: the store's `getCartTotal` / the spec's
`computeTotals(ledger, appliedDiscount?)` (`src/store/useStore`, not part of
the supplied sources; spec section 4.2): `subtotal` summed over lines,
`tax = subtotal * TAX_RATE`, the discount reduction of `discountAmountOf`,
and `total = subtotal + tax - discountAmount` floored at 0. -/
def computeTotals (cart : List CartItem) (appliedDiscount : Option Discount) : PriceBreakdown :=
  let s := subtotalOf cart
  let t := s * TAX_RATE
  let da := discountAmountOf s appliedDiscount
  { subtotal := s, tax := t, discountAmount := da, total := max 0 (s + t - da) }

/-- Display rounding of a currency amount to integer cents, round half up:
the two-fractional-digit rendering `x.toFixed(2)` applied at display sites
only (spec section 4.2). -/
def toFixed2 (q : ℚ) : ℤ :=
  ⌊q * 100 + 1 / 2⌋

/-- Customer form data of the checkout screen
(`app/checkout/index.tsx` lines 38 to 46; `src/types`: `CustomerInfo`). -/
structure CustomerInfo where
  name : String
  email : String
  phone : String
  address : String
  city : String
  postal_code : String
  country : String := "Belgium"
deriving DecidableEq

/-- `validateForm` of the checkout screen (`app/checkout/index.tsx` lines 64
to 90): each required field must be non-empty after trimming and the email
must contain an `@`; the first failing check aborts with `false`. -/
def validateForm (c : CustomerInfo) : Bool :=
  if jsTrim c.name = "" then false
  else if jsTrim c.email = "" || !(jsIncludesChar c.email '@') then false
  else if jsTrim c.phone = "" then false
  else if jsTrim c.address = "" then false
  else if jsTrim c.city = "" then false
  else if jsTrim c.postal_code = "" then false
  else true

/-- An error carried by a rejected API call (`error.response.data.detail`). -/
abbrev ApiError : Type := String

/-- The order returned by `createOrder` (`src/services/api`), as used by the
checkout screen: its `id` feeds `processMockPayment` and its `order_number`
the success route (`app/checkout/index.tsx` lines 101 to 119). -/
structure OrderInfo where
  id : String
  order_number : String
deriving DecidableEq

/-- The checkout screen's state touched by `handleApplyDiscount`: the ledger,
the applied discount, the code input field and the busy flag
(`app/checkout/index.tsx` lines 31 to 36). -/
structure CheckoutState where
  cart : List CartItem
  appliedDiscount : Option Discount
  discountCode : String
  applyingDiscount : Bool := false
deriving DecidableEq

/-- Result of one run of the apply-discount handler: the checkout state it
leaves behind and whether the external `validateDiscount` call was made. -/
structure ApplyDiscountOutcome where
  state : CheckoutState
  calledValidate : Bool
deriving DecidableEq

/-- `handleApplyDiscount` of the checkout screen (`app/checkout/index.tsx`
lines 48 to 62), run to completion against the result the awaited
`validateDiscount` call would produce: a blank (all-whitespace) code returns
before anything happens; a successful validation stores the discount and
clears the input; a thrown rejection only alerts, the `finally` clause
resetting the busy flag either way. -/
def handleApplyDiscount (s : CheckoutState) (result : Except ApiError Discount) :
    ApplyDiscountOutcome :=
  if jsTrim s.discountCode = "" then { state := s, calledValidate := false }
  else
    match result with
    | .ok d =>
      { state := { s with appliedDiscount := some d, discountCode := "",
                          applyingDiscount := false },
        calledValidate := true }
    | .error _ =>
      { state := { s with applyingDiscount := false }, calledValidate := true }

/-- Result of one run of the place-order handler: the ledger it leaves
behind, whether `createOrder` was called, whether `clearCart` ran, and
whether the screen navigated to the success route. -/
structure PlaceOrderOutcome where
  cart : List CartItem
  createOrderCalled : Bool
  clearCartCalled : Bool
  navigatedToSuccess : Bool
deriving DecidableEq

/-- `handlePlaceOrder` of the checkout screen (`app/checkout/index.tsx` lines
92 to 128), run to completion against the results the awaited `createOrder`
and `processMockPayment` calls would produce: local validation and the
empty-cart check abort before any external call; a `createOrder` failure, or
a mock-payment failure after it, fall to the `catch` clause which only
alerts; only the fully successful path reaches `clearCart()`. -/
def handlePlaceOrder (cart : List CartItem) (customer : CustomerInfo)
    (selectedPayment : String) (orderResult : Except ApiError OrderInfo)
    (payResult : Except ApiError Unit) : PlaceOrderOutcome :=
  if validateForm customer then
    if cart.isEmpty then
      { cart := cart, createOrderCalled := false, clearCartCalled := false,
        navigatedToSuccess := false }
    else
      match orderResult with
      | .error _ =>
        { cart := cart, createOrderCalled := true, clearCartCalled := false,
          navigatedToSuccess := false }
      | .ok _ =>
        if selectedPayment = "mock" then
          match payResult with
          | .error _ =>
            { cart := cart, createOrderCalled := true, clearCartCalled := false,
              navigatedToSuccess := false }
          | .ok _ =>
            { cart := clearCart, createOrderCalled := true, clearCartCalled := true,
              navigatedToSuccess := true }
        else
          { cart := clearCart, createOrderCalled := true, clearCartCalled := true,
            navigatedToSuccess := true }
  else
    { cart := cart, createOrderCalled := false, clearCartCalled := false,
      navigatedToSuccess := false }

/-- A concrete catalog product used by the spec's worked pricing example
(price 10.00). -/
def prodTen : Product := { id := "P10", price := 10, stock := 5 }

/-- A concrete catalog product used by the spec's worked pricing example
(price 5.50). -/
def prodFiveFifty : Product := { id := "P55", price := 11 / 2, stock := 5 }

/-- The spec's worked example ledger: lines (price 10.00, qty 2) and
(price 5.50, qty 1) (spec section 8). -/
def exampleCart : List CartItem :=
  [{ product := prodTen, quantity := 2 }, { product := prodFiveFifty, quantity := 1 }]

/-- A concrete customer whose form passes every check, for witnesses. -/
def goodCustomer : CustomerInfo :=
  { name := "John Doe", email := "john@example.com", phone := "+32 1", address := "Street 1",
    city := "Ghent", postal_code := "9000" }

/-- A concrete order confirmation, for witnesses. -/
def someOrder : OrderInfo := { id := "o1", order_number := "HRD-1" }

/-- A concrete ten-percent discount with no minimum, for witnesses. -/
def tenPercentOff : Discount :=
  { code := "TEN", discount_type := .percentage, discount_value := 10, min_order_amount := 0 }

/-- A concrete checkout state whose discount-code input is all whitespace
while a discount is already applied, for witnesses. -/
def blankCodeState : CheckoutState :=
  { cart := exampleCart, appliedDiscount := some tenPercentOff, discountCode := "   " }

theorem quantityOf_nil (pid : String) : quantityOf [] pid = 0 := rfl

theorem quantityOf_cons (it : CartItem) (rest : List CartItem) (pid : String) :
    quantityOf (it :: rest) pid =
      (if it.product.id = pid then it.quantity else 0) + quantityOf rest pid := by
  by_cases h : it.product.id = pid <;>
    simp [quantityOf, List.filter_cons, h]

theorem mem_cartIds_iff (cart : List CartItem) (pid : String) :
    pid ∈ cartIds cart ↔ ∃ it ∈ cart, it.product.id = pid := by
  simp [cartIds, List.mem_map, eq_comm]

theorem hasProduct_eq_true_iff (cart : List CartItem) (pid : String) :
    hasProduct cart pid = true ↔ pid ∈ cartIds cart := by
  simp [hasProduct, List.any_eq_true, mem_cartIds_iff]

theorem cartIds_map_preserving (cart : List CartItem) (f : CartItem → CartItem)
    (hf : ∀ it, (f it).product.id = it.product.id) :
    cartIds (cart.map f) = cartIds cart := by
  induction cart with
  | nil => rfl
  | cons it rest ih =>
    simp only [cartIds, List.map_cons] at ih ⊢
    rw [hf it, ih]

theorem quantityOf_eq_zero_of_not_mem (cart : List CartItem) (pid : String)
    (h : pid ∉ cartIds cart) : quantityOf cart pid = 0 := by
  induction cart with
  | nil => rfl
  | cons it rest ih =>
    simp only [cartIds, List.map_cons, List.mem_cons, not_or] at h
    rw [quantityOf_cons, ih h.2, if_neg (fun he => h.1 he.symm)]

theorem getCartItemCount_go (cart : List CartItem) (a : Nat) :
    cart.foldl (fun sum it => sum + it.quantity) a =
      a + cart.foldl (fun sum it => sum + it.quantity) 0 := by
  induction cart generalizing a with
  | nil => simp
  | cons it rest ih =>
    simp only [List.foldl_cons, Nat.zero_add]
    rw [ih (a + it.quantity), ih it.quantity]
    omega

theorem getCartItemCount_cons (it : CartItem) (rest : List CartItem) :
    getCartItemCount (it :: rest) = it.quantity + getCartItemCount rest := by
  simp only [getCartItemCount, List.foldl_cons, Nat.zero_add]
  exact getCartItemCount_go rest it.quantity

theorem getCartItemCount_filter_add (cart : List CartItem) (pid : String) :
    getCartItemCount (cart.filter fun it => !(it.product.id == pid)) + quantityOf cart pid =
      getCartItemCount cart := by
  induction cart with
  | nil => rfl
  | cons it rest ih =>
    by_cases h : it.product.id = pid
    · rw [quantityOf_cons, if_pos h, getCartItemCount_cons]
      have hb : (it.product.id == pid) = true := beq_iff_eq.mpr h
      simp only [List.filter_cons, hb, Bool.not_true, Bool.false_eq_true, if_false]
      omega
    · have hb : (it.product.id == pid) = false := beq_eq_false_iff_ne.mpr h
      rw [quantityOf_cons, if_neg h, getCartItemCount_cons]
      simp only [List.filter_cons, hb, Bool.not_false, if_true, getCartItemCount_cons]
      omega

theorem quantityOf_map_adjust (cart : List CartItem) (pid : String) (g : Nat → Nat)
    (hnd : (cartIds cart).Nodup) :
    quantityOf
        (cart.map fun it =>
          if it.product.id == pid then { it with quantity := g it.quantity } else it)
        pid =
      if pid ∈ cartIds cart then g (quantityOf cart pid) else 0 := by
  induction cart with
  | nil => simp [quantityOf_nil, cartIds]
  | cons it rest ih =>
    have hnd' : (cartIds rest).Nodup ∧ it.product.id ∉ cartIds rest := by
      simpa [cartIds, List.nodup_cons, and_comm] using hnd
    by_cases h : it.product.id = pid
    · have hb : (it.product.id == pid) = true := beq_iff_eq.mpr h
      have hrest0 : quantityOf rest pid = 0 :=
        quantityOf_eq_zero_of_not_mem rest pid (h ▸ hnd'.2)
      have hmap0 :
          quantityOf
            (rest.map fun it =>
              if it.product.id == pid then { it with quantity := g it.quantity } else it)
            pid = 0 := by
        apply quantityOf_eq_zero_of_not_mem
        rw [cartIds_map_preserving]
        · exact h ▸ hnd'.2
        · intro it'
          by_cases hb' : (it'.product.id == pid) = true <;> simp [hb']
      simp only [List.map_cons, hb, if_true, quantityOf_cons, hmap0, hrest0]
      have hmem : pid ∈ cartIds (it :: rest) := by
        simp [cartIds, h.symm]
      simp [h, hmem]
    · have hb : (it.product.id == pid) = false := beq_eq_false_iff_ne.mpr h
      have hmem : pid ∈ cartIds (it :: rest) ↔ pid ∈ cartIds rest := by
        simp only [cartIds, List.map_cons, List.mem_cons]
        constructor
        · rintro (he | hm)
          · exact absurd he.symm h
          · exact hm
        · exact Or.inr
      simp only [List.map_cons, hb, Bool.false_eq_true, if_false, quantityOf_cons, if_neg h,
        Nat.zero_add, ih hnd'.1, hmem]

theorem cartWf_filter (cart : List CartItem) (p : CartItem → Bool) (h : CartWf cart) :
    CartWf (cart.filter p) := by
  constructor
  · have hsub : (cartIds (cart.filter p)).Sublist (cartIds cart) := by
      simp only [cartIds]
      exact (cart.filter_sublist).map fun it => it.product.id
    exact h.1.sublist hsub
  · intro it hit
    exact h.2 it (List.mem_of_mem_filter hit)

theorem cartWf_addToCart (cart : List CartItem) (p : Product) (q : Nat)
    (h : CartWf cart) (hq : 1 ≤ q) : CartWf (addToCart cart p q) := by
  unfold addToCart
  by_cases hp : hasProduct cart p.id
  · rw [if_pos hp]
    constructor
    · rw [cartIds_map_preserving]
      · exact h.1
      · intro it
        by_cases hb : (it.product.id == p.id) = true <;> simp [hb]
    · intro it hit
      rcases List.mem_map.mp hit with ⟨it0, h0, rfl⟩
      by_cases hb : (it0.product.id == p.id) = true
      · have := h.2 it0 h0
        simp only [hb, if_true]
        omega
      · simp only [Bool.not_eq_true] at hb
        simp only [hb, Bool.false_eq_true, if_false]
        exact h.2 it0 h0
  · rw [if_neg hp]
    have hnm : p.id ∉ cartIds cart := by
      intro hm
      exact hp ((hasProduct_eq_true_iff cart p.id).mpr hm)
    constructor
    · have : cartIds (cart ++ [{ product := p, quantity := q }]) = cartIds cart ++ [p.id] := by
        simp [cartIds]
      rw [this, List.nodup_append]
      exact ⟨h.1, List.nodup_singleton _, by simpa [List.disjoint_singleton] using hnm⟩
    · intro it hit
      rcases List.mem_append.mp hit with h0 | h0
      · exact h.2 it h0
      · rcases List.mem_singleton.mp h0 with rfl
        exact hq

theorem cartWf_updateQuantity (cart : List CartItem) (pid : String) (q : Int)
    (h : CartWf cart) : CartWf (updateQuantity cart pid q) := by
  unfold updateQuantity
  by_cases hq : q ≤ 0
  · rw [if_pos hq]
    exact cartWf_filter cart _ h
  · rw [if_neg hq]
    constructor
    · rw [cartIds_map_preserving]
      · exact h.1
      · intro it
        by_cases hb : (it.product.id == pid) = true <;> simp [hb]
    · intro it hit
      rcases List.mem_map.mp hit with ⟨it0, h0, rfl⟩
      by_cases hb : (it0.product.id == pid) = true
      · simp only [hb, if_true]
        omega
      · simp only [Bool.not_eq_true] at hb
        simp only [hb, Bool.false_eq_true, if_false]
        exact h.2 it0 h0

theorem cartWf_removeFromCart (cart : List CartItem) (pid : String)
    (h : CartWf cart) : CartWf (removeFromCart cart pid) :=
  cartWf_filter cart _ h

theorem cartWf_applyOp (cart : List CartItem) (op : CartOp)
    (h : CartWf cart) (hop : legalOp op) : CartWf (applyOp cart op) := by
  cases op with
  | add p q => exact cartWf_addToCart cart p q h hop
  | update pid q => exact cartWf_updateQuantity cart pid q h
  | remove pid => exact cartWf_removeFromCart cart pid h

theorem cartWf_empty : CartWf [] :=
  ⟨List.nodup_nil, fun it hit => absurd hit (List.not_mem_nil it)⟩

theorem cartWf_foldl (ops : List CartOp) :
    ∀ cart, CartWf cart → (∀ op ∈ ops, legalOp op) →
      CartWf (ops.foldl applyOp cart) := by
  induction ops with
  | nil => exact fun cart h _ => h
  | cons op rest ih =>
    intro cart h hops
    exact ih (applyOp cart op)
      (cartWf_applyOp cart op h (hops op (List.mem_cons_self op rest)))
      (fun op' h' => hops op' (List.mem_cons_of_mem op h'))

theorem orEmpty_empty_right (s : String) : orEmpty s "" = s := by
  by_cases h : s = "" <;> simp [orEmpty, h]

theorem orEmpty_eq_empty_iff (a b : String) : orEmpty a b = "" ↔ a = "" ∧ b = "" := by
  by_cases h : a = "" <;> simp [orEmpty, h]

theorem firstNonEmpty_cons (s : String) (rest : List String) :
    firstNonEmpty (s :: rest) = orEmpty s (firstNonEmpty rest) := by
  by_cases h : s = "" <;> simp [firstNonEmpty, orEmpty, h]

theorem firstNonEmpty_four (a b c d : String) :
    firstNonEmpty [a, b, c, d] = orEmpty a (orEmpty b (orEmpty c d)) := by
  by_cases ha : a = "" <;> by_cases hb : b = "" <;> by_cases hc : c = "" <;>
    by_cases hd : d = "" <;> simp [firstNonEmpty, orEmpty, ha, hb, hc, hd]

theorem validateForm_eq_true_iff (c : CustomerInfo) :
    validateForm c = true ↔
      (jsTrim c.name ≠ "" ∧ jsTrim c.email ≠ "" ∧ jsIncludesChar c.email '@' = true ∧
       jsTrim c.phone ≠ "" ∧ jsTrim c.address ≠ "" ∧ jsTrim c.city ≠ "" ∧
       jsTrim c.postal_code ≠ "") := by
  unfold validateForm
  by_cases h1 : jsTrim c.name = "" <;>
    by_cases h2 : jsTrim c.email = "" <;>
      by_cases h3 : jsIncludesChar c.email '@' = true <;>
        by_cases h4 : jsTrim c.phone = "" <;>
          by_cases h5 : jsTrim c.address = "" <;>
            by_cases h6 : jsTrim c.city = "" <;>
              by_cases h7 : jsTrim c.postal_code = "" <;>
                simp [h1, h2, h3, h4, h5, h6, h7]

/-- C1: for every ledger and every applied discount, the pricing engine's
totals computation returns a breakdown whose `total` equals
`subtotal + tax - discountAmount` floored at 0, so the total is never
negative. -/
theorem C1_computeTotals_total_floored_at_zero :
    ∀ (cart : List CartItem) (d : Option Discount),
      (computeTotals cart d).total =
        max 0 ((computeTotals cart d).subtotal + (computeTotals cart d).tax -
          (computeTotals cart d).discountAmount) ∧
      0 ≤ (computeTotals cart d).total := by
  intro cart d
  exact ⟨rfl, le_max_left 0 _⟩

/-- C2: for every ledger, `tax = subtotal * TAX_RATE` with `TAX_RATE` the
fixed constant `0.21`; on the spec's two-line example ledger
[(price 10.00, qty 2), (price 5.50, qty 1)] the subtotal is exactly 25.50 and
the tax exactly 5.355 (an amount finer than two fractional digits, showing no
intermediate rounding), which rounds to 5.36 (536 cents) only at display. -/
theorem C2_tax_rate_and_worked_example :
    TAX_RATE = 21 / 100 ∧
    (∀ (cart : List CartItem) (d : Option Discount),
      (computeTotals cart d).tax = (computeTotals cart d).subtotal * TAX_RATE) ∧
    subtotalOf exampleCart = 51 / 2 ∧
    (computeTotals exampleCart none).tax = 1071 / 200 ∧
    toFixed2 (computeTotals exampleCart none).tax = 536 ∧
    (computeTotals exampleCart none).total = 6171 / 200 ∧
    toFixed2 (computeTotals exampleCart none).total = 3086 := by
  have hsub : subtotalOf exampleCart = 51 / 2 := by
    norm_num [subtotalOf, exampleCart, prodTen, prodFiveFifty]
  have htax : (computeTotals exampleCart none).tax = 1071 / 200 := by
    show subtotalOf exampleCart * TAX_RATE = 1071 / 200
    rw [hsub, TAX_RATE]
    norm_num
  have htot : (computeTotals exampleCart none).total = 6171 / 200 := by
    show max 0 (subtotalOf exampleCart + subtotalOf exampleCart * TAX_RATE -
      discountAmountOf (subtotalOf exampleCart) none) = 6171 / 200
    rw [hsub, TAX_RATE, discountAmountOf]
    norm_num
  refine ⟨rfl, fun cart d => rfl, hsub, htax, ?_, htot, ?_⟩
  · rw [htax]
    norm_num [toFixed2]
  · rw [htot]
    norm_num [toFixed2]

/-- C3: every finite sequence of `addToCart` / `updateQuantity` /
`removeFromCart` operations (with `addToCart` quantities positive, its
declared domain) started from the empty ledger yields a ledger with at most
one line per product id in which every line has quantity at least 1. -/
theorem C3_ledger_invariant (ops : List CartOp) (hops : ∀ op ∈ ops, legalOp op) :
    CartWf (applyOps ops) :=
  cartWf_foldl ops [] cartWf_empty hops

/-- Witness for C3 on a concrete operation sequence. -/
theorem C3_ledger_invariant_witness :
    CartWf (applyOps [CartOp.add prodTen 2, CartOp.add prodFiveFifty 1,
      CartOp.update "P10" 5, CartOp.remove "P55"]) :=
  C3_ledger_invariant _ (by
    intro op h
    simp only [List.mem_cons, List.not_mem_nil, or_false] at h
    rcases h with rfl | rfl | rfl | rfl <;> norm_num [legalOp])

/-- C4: `addToCart` merges by product id: on a well-formed ledger that
already holds a line for `p.id`, adding `q` more keeps the id list and the
line count unchanged and increases that line's quantity by exactly `q`; in
particular `addToCart(P, 2)` then `addToCart(P, 3)` from the empty ledger
yields the single line `(P, 5)`. -/
theorem C4_addToCart_merges_by_id :
    ∀ (cart : List CartItem) (p : Product) (q : Nat),
      ((cartIds cart).Nodup → p.id ∈ cartIds cart →
        cartIds (addToCart cart p q) = cartIds cart ∧
        (addToCart cart p q).length = cart.length ∧
        quantityOf (addToCart cart p q) p.id = quantityOf cart p.id + q) ∧
      addToCart (addToCart [] p 2) p 3 = [{ product := p, quantity := 5 }] := by
  intro cart p q
  constructor
  · intro hnd hmem
    have hp : hasProduct cart p.id = true := (hasProduct_eq_true_iff cart p.id).mpr hmem
    unfold addToCart
    rw [if_pos hp]
    refine ⟨?_, List.length_map cart _, ?_⟩
    · apply cartIds_map_preserving
      intro it
      by_cases hb : (it.product.id == p.id) = true <;> simp [hb]
    · have h := quantityOf_map_adjust cart p.id (fun n => n + q) hnd
      rw [if_pos hmem] at h
      simpa using h
  · have h0 : hasProduct ([] : List CartItem) p.id = false := rfl
    have h1 : addToCart [] p 2 = [{ product := p, quantity := 2 }] := by
      unfold addToCart
      rw [h0]
      simp
    rw [h1]
    have h2 : hasProduct [{ product := p, quantity := 2 }] p.id = true := by
      simp [hasProduct]
    unfold addToCart
    rw [h2]
    simp

/-- Witness for C4 on a concrete one-line ledger already holding the product. -/
theorem C4_addToCart_merges_by_id_witness :
    cartIds (addToCart [{ product := prodTen, quantity := 2 }] prodTen 3) =
      cartIds [{ product := prodTen, quantity := 2 }] ∧
    (addToCart [{ product := prodTen, quantity := 2 }] prodTen 3).length =
      ([{ product := prodTen, quantity := 2 }] : List CartItem).length ∧
    quantityOf (addToCart [{ product := prodTen, quantity := 2 }] prodTen 3) prodTen.id =
      quantityOf [{ product := prodTen, quantity := 2 }] prodTen.id + 3 :=
  (C4_addToCart_merges_by_id [{ product := prodTen, quantity := 2 }] prodTen 3).1
    (by decide) (by decide)

/-- C5: `updateQuantity(productId, newQuantity)` removes the line when
`newQuantity <= 0`; for positive `newQuantity` it keeps the id list and, on a
well-formed ledger holding the line, sets that line's quantity to exactly
`newQuantity` (not an increment); and after `updateQuantity(P, 0)` the item
count no longer counts P: it drops by exactly P's former quantity. -/
theorem C5_updateQuantity_semantics :
    ∀ (cart : List CartItem) (pid : String) (q : Int),
      (q ≤ 0 → pid ∉ cartIds (updateQuantity cart pid q)) ∧
      (1 ≤ q → (cartIds cart).Nodup →
        cartIds (updateQuantity cart pid q) = cartIds cart ∧
        (pid ∈ cartIds cart → quantityOf (updateQuantity cart pid q) pid = q.toNat)) ∧
      getCartItemCount (updateQuantity cart pid 0) + quantityOf cart pid =
        getCartItemCount cart := by
  intro cart pid q
  refine ⟨?_, ?_, ?_⟩
  · intro hq hmem
    unfold updateQuantity at hmem
    rw [if_pos hq] at hmem
    rcases (mem_cartIds_iff _ pid).mp hmem with ⟨it, hit, hid⟩
    have h' := List.of_mem_filter hit
    rw [Bool.not_eq_eq_eq_not, Bool.not_true] at h'
    exact absurd hid (beq_eq_false_iff_ne.mp h')
  · intro hq hnd
    have hq' : ¬ q ≤ 0 := by omega
    unfold updateQuantity
    rw [if_neg hq']
    constructor
    · apply cartIds_map_preserving
      intro it
      by_cases hb : (it.product.id == pid) = true <;> simp [hb]
    · intro hmem
      have h := quantityOf_map_adjust cart pid (fun _ => q.toNat) hnd
      rw [if_pos hmem] at h
      exact h
  · unfold updateQuantity
    rw [if_pos (le_refl (0 : Int))]
    exact getCartItemCount_filter_add cart pid

/-- Witness for C5: setting P10's quantity to 0 on the example ledger
removes its line. -/
theorem C5_updateQuantity_semantics_witness :
    "P10" ∉ cartIds (updateQuantity exampleCart "P10" 0) :=
  (C5_updateQuantity_semantics exampleCart "P10" 0).1 (by decide)

/-- C6: the localized-text resolver is total and deterministic: it returns
the active language's string when non-empty, otherwise the first non-empty
value among en, nl, fr, tr in that fixed order, and it returns the empty
string exactly when every candidate is empty; the spec's three examples
resolve as stated. -/
theorem C6_getLocalizedText_resolution :
    (∀ (t : MultilingualText) (l : Lang),
      (t.get l ≠ "" → getLocalizedText t l = t.get l) ∧
      (t.get l = "" → getLocalizedText t l = firstNonEmpty [t.en, t.nl, t.fr, t.tr]) ∧
      (getLocalizedText t l = "" ↔
        t.get l = "" ∧ t.en = "" ∧ t.nl = "" ∧ t.fr = "" ∧ t.tr = "")) ∧
    getLocalizedText { en := "Hammer" } Lang.fr = "Hammer" ∧
    getLocalizedText { fr := "Marteau" } Lang.nl = "Marteau" ∧
    getLocalizedText {} Lang.en = "" := by
  refine ⟨fun t l => ⟨?_, ?_, ?_⟩, by decide, by decide, by decide⟩
  · intro h
    simp [getLocalizedText, orEmpty, h]
  · intro h
    rw [firstNonEmpty_four]
    simp [getLocalizedText, orEmpty, h]
  · simp [getLocalizedText, orEmpty_eq_empty_iff, and_assoc]

/-- Witness for C6: a record with only an English name falls back to the
fixed-order chain under the Turkish active language. -/
theorem C6_getLocalizedText_resolution_witness :
    getLocalizedText { en := "Hammer" } Lang.tr =
      firstNonEmpty ["Hammer", "", "", ""] :=
  (C6_getLocalizedText_resolution.1 { en := "Hammer" } Lang.tr).2.1 (by decide)

/-- C7: when the awaited `validateDiscount` call rejects or fails (the
handler's catch branch), the applied discount, the ledger, and the code
input field are all left exactly as they were. -/
theorem C7_discount_rejection_preserves_state :
    ∀ (s : CheckoutState) (e : ApiError),
      (handleApplyDiscount s (Except.error e)).state.appliedDiscount = s.appliedDiscount ∧
      (handleApplyDiscount s (Except.error e)).state.cart = s.cart ∧
      (handleApplyDiscount s (Except.error e)).state.discountCode = s.discountCode := by
  intro s e
  unfold handleApplyDiscount
  by_cases h : jsTrim s.discountCode = "" <;> simp [h]

/-- C8: a failed `createOrder` leaves the ledger exactly as it was and
`clearCart` does not run; conversely `clearCart` runs only in executions
whose `createOrder` call succeeded. -/
theorem C8_order_failure_preserves_cart :
    ∀ (cart : List CartItem) (customer : CustomerInfo) (payment : String)
      (payResult : Except ApiError Unit) (e : ApiError)
      (orderResult : Except ApiError OrderInfo),
      ((handlePlaceOrder cart customer payment (Except.error e) payResult).cart = cart ∧
       (handlePlaceOrder cart customer payment (Except.error e) payResult).clearCartCalled =
         false) ∧
      ((handlePlaceOrder cart customer payment orderResult payResult).clearCartCalled = true →
        ∃ o, orderResult = Except.ok o) := by
  intro cart customer payment payResult e orderResult
  constructor
  · by_cases hv : validateForm customer <;> by_cases hc : cart.isEmpty <;>
      simp [handlePlaceOrder, hv, hc]
  · intro hclear
    cases orderResult with
    | ok o => exact ⟨o, rfl⟩
    | error e2 =>
      exfalso
      by_cases hv : validateForm customer <;> by_cases hc : cart.isEmpty <;>
        simp [handlePlaceOrder, hv, hc] at hclear

/-- Witness for C8: on a successful run (valid customer, non-empty cart,
successful order and mock payment) `clearCart` ran, so the order call indeed
succeeded. -/
theorem C8_order_failure_preserves_cart_witness :
    ∃ o, (Except.ok someOrder : Except ApiError OrderInfo) = Except.ok o :=
  (C8_order_failure_preserves_cart [{ product := prodTen, quantity := 1 }] goodCustomer
    "mock" (Except.ok ()) "network error" (Except.ok someOrder)).2 (by decide)

/-- C9: order placement validates the customer form locally before any
external call: when any of the six required fields is blank after trimming,
or the email lacks an `@`, `createOrder` is never invoked; and whenever
`createOrder` is invoked, every one of those checks passed. -/
theorem C9_local_validation_guards_submission :
    ∀ (cart : List CartItem) (customer : CustomerInfo) (payment : String)
      (orderResult : Except ApiError OrderInfo) (payResult : Except ApiError Unit),
      ((jsTrim customer.name = "" ∨ jsTrim customer.email = "" ∨
        jsIncludesChar customer.email '@' = false ∨ jsTrim customer.phone = "" ∨
        jsTrim customer.address = "" ∨ jsTrim customer.city = "" ∨
        jsTrim customer.postal_code = "") →
        (handlePlaceOrder cart customer payment orderResult payResult).createOrderCalled =
          false) ∧
      ((handlePlaceOrder cart customer payment orderResult payResult).createOrderCalled =
          true →
        jsTrim customer.name ≠ "" ∧ jsTrim customer.email ≠ "" ∧
        jsIncludesChar customer.email '@' = true ∧ jsTrim customer.phone ≠ "" ∧
        jsTrim customer.address ≠ "" ∧ jsTrim customer.city ≠ "" ∧
        jsTrim customer.postal_code ≠ "") := by
  intro cart customer payment orderResult payResult
  by_cases hv : validateForm customer
  · have hch := (validateForm_eq_true_iff customer).mp hv
    constructor
    · intro hbad
      exfalso
      rcases hch with ⟨h1, h2, h3, h4, h5, h6, h7⟩
      rcases hbad with h | h | h | h | h | h | h <;> simp_all
    · intro _
      exact hch
  · constructor
    · intro _
      by_cases hc : cart.isEmpty <;> simp [handlePlaceOrder, hv, hc]
    · intro hcall
      exfalso
      by_cases hc : cart.isEmpty <;> simp [handlePlaceOrder, hv, hc] at hcall
  
/-- Witness for C9: a blank customer name blocks the order call even with a
non-empty cart and an available order result. -/
theorem C9_local_validation_guards_submission_witness :
    (handlePlaceOrder [{ product := prodTen, quantity := 1 }]
      { goodCustomer with name := "  " } "mock" (Except.ok someOrder)
      (Except.ok ())).createOrderCalled = false :=
  (C9_local_validation_guards_submission [{ product := prodTen, quantity := 1 }]
    { goodCustomer with name := "  " } "mock" (Except.ok someOrder)
    (Except.ok ())).1 (Or.inl (by decide))

/-- C10: a blank (empty or all-whitespace) discount-code input makes the
apply-discount handler return at once: the external `validateDiscount` call
is not made and the checkout state, ledger included, is exactly unchanged. -/
theorem C10_blank_discount_code_no_call (s : CheckoutState)
    (result : Except ApiError Discount) (h : jsTrim s.discountCode = "") :
    handleApplyDiscount s result = { state := s, calledValidate := false } := by
  unfold handleApplyDiscount
  rw [if_pos h]

/-- Witness for C10 on an all-whitespace code with a discount already
applied and a rejection waiting from the API. -/
theorem C10_blank_discount_code_no_call_witness :
    handleApplyDiscount blankCodeState (Except.error "Invalid discount code") =
      { state := blankCodeState, calledValidate := false } :=
  C10_blank_discount_code_no_call blankCodeState (Except.error "Invalid discount code")
    (by decide)
